import Mathlib

/-! Shallow embedding of the lru_bench cache-benchmark core:
src/config.rs, src/error.rs and src/cache.rs.

Modelling conventions:
- Rust `usize`, `u32`, `u64` values are `Nat`; the only place where u64 overflow
  can actually occur (the `hits + misses` addition in `calculate_hit_rate`) is
  modelled with an explicit `% 2 ^ 64`, matching release-build wrapping.
- Rust `f64` values (the Zipf sample, the `random::<f64>()` draws in `[0,1)`,
  the hit-rate percentage) are idealised as rationals `ℚ`; the float literals
  0.95, 1.6 and 0.2 are modelled as the rationals 19/20, 8/5 and 1/5.
- The `rand` RNG streams (`StdRng`, `SmallRng`) are an abstract state type `ρ`
  with explicit draw functions (`Rng`), threaded exactly as the source threads
  `&mut rng`; the predicate `RngWF` records the documented contracts of the
  library draws (`rand_distr::Zipf` samples the integers 1..=n, `random::<f64>()`
  lies in `[0,1)`, `random_range(lo..=hi)` lies in `[lo,hi]`).
- The async suspensions (`compio::time::sleep`) and the adapter calls are made
  observable as a `Call` trace so that effect and ordering claims are statable.
-/

namespace LruBench

/-- Configuration from src/config.rs, gathered into a record so that parameter
validation can be stated for arbitrary values; `defaultConfig` holds the exact
compiled-in constants. The field `readRatio` embeds the source constant
named `READ` `_RATIO` (0.95). -/
structure Config where
  CACHE_CAPACITY : Nat
  TOTAL_KEYS : Nat
  WORKLOAD_SIZE : Nat
  ZIPF_S : ℚ
  readRatio : ℚ
  MIN_DELAY_US : Nat
  MAX_DELAY_US : Nat
  WARMUP_SEED : Nat
  WORKLOAD_SEED : Nat

/-- The compiled-in constants of src/config.rs; the f64 literals 1.6 and 0.95
are the rationals 8/5 and 19/20, written with mkRat so that they evaluate
inside the kernel. -/
def defaultConfig : Config :=
  { CACHE_CAPACITY := 7500
    TOTAL_KEYS := 10000
    WORKLOAD_SIZE := 1000
    ZIPF_S := mkRat 8 5
    readRatio := mkRat 19 20
    MIN_DELAY_US := 1000
    MAX_DELAY_US := 2000
    WARMUP_SEED := 123
    WORKLOAD_SEED := 42 }

/-- bench::WARMUP_SIZE = CACHE_CAPACITY (src/config.rs). -/
def Config.WARMUP_SIZE (cfg : Config) : Nat := cfg.CACHE_CAPACITY

/-- Decidable equality for Except results, so that concrete runs of the
generators can be checked by evaluation. -/
instance {ε α : Type} [DecidableEq ε] [DecidableEq α] : DecidableEq (Except ε α) :=
  fun x y =>
    match x, y with
    | Except.error a, Except.error b =>
      if h : a = b then Decidable.isTrue (by rw [h])
      else Decidable.isFalse (by simp [h])
    | Except.error _, Except.ok _ => Decidable.isFalse (by simp)
    | Except.ok _, Except.error _ => Decidable.isFalse (by simp)
    | Except.ok a, Except.ok b =>
      if h : a = b then Decidable.isTrue (by rw [h])
      else Decidable.isFalse (by simp [h])

/-- AppError from src/error.rs. -/
inductive AppError where
  | RuntimeCreate (msg : String)
  | ZipfCreate (msg : String)
  | CacheOperation (msg : String)
  | Io (msg : String)
  | Config (msg : String)
deriving DecidableEq

/-- Op from src/cache.rs. -/
inductive Op where
  | Read (key : Nat)
  | Write (key value : Nat)
deriving DecidableEq

/-- The CacheOps trait of src/cache.rs: an adapter is an opaque mutable state σ
with a (possibly state-mutating) lookup, an upserting insert and a name. -/
structure CacheOps (σ : Type) where
  get : σ → Nat → Option Nat × σ
  insert : σ → Nat → Nat → σ
  name : String

/-- Abstract model of the rand RNG streams used by the program. `zipfSample n s`
models sampling the `rand_distr::Zipf::new(n, s)` distribution (an f64 result),
`randF64` models `random::<f64>()`, `randU32` models `random::<u32>()`,
`randRange lo hi` models `random_range(lo..=hi)` on u64, and `seedFromU64`
models `StdRng::seed_from_u64`. -/
structure Rng (ρ : Type) where
  seedFromU64 : Nat → ρ
  zipfSample : ℚ → ℚ → ρ → ℚ × ρ
  randF64 : ρ → ℚ × ρ
  randU32 : ρ → Nat × ρ
  randRange : Nat → Nat → ρ → Nat × ρ

/-- Documented contracts of the library draws: `rand_distr::Zipf::new(n, s)`
samples the integers 1..=n (returned as floats), `random::<f64>()` lies in
`[0,1)`, `random::<u32>()` fits in 32 bits, and `random_range(lo..=hi)` lies
in `[lo, hi]` whenever the range is nonempty. -/
structure RngWF {ρ : Type} (R : Rng ρ) : Prop where
  zipf_mem : ∀ (n s : ℚ) (st : ρ), 1 ≤ n →
    1 ≤ (R.zipfSample n s st).1 ∧ (R.zipfSample n s st).1 ≤ n
  randF64_mem : ∀ st : ρ, 0 ≤ (R.randF64 st).1 ∧ (R.randF64 st).1 < 1
  randU32_mem : ∀ st : ρ, (R.randU32 st).1 < 2 ^ 32
  randRange_mem : ∀ (lo hi : Nat) (st : ρ), lo ≤ hi →
    lo ≤ (R.randRange lo hi st).1 ∧ (R.randRange lo hi st).1 ≤ hi

/-- Modelled from the spec: parameter validation of the external
`rand_distr::Zipf::new` constructor (the crate's source is not part of this
repository). Per the spec, generation "fails with GenerationError if the
exponent is non-positive or the key space is empty"; src/cache.rs maps the
constructor error through `AppError::ZipfCreate`. -/
def zipfNew (n s : ℚ) : Except AppError Unit :=
  if s ≤ 0 ∨ n < 1 then Except.error (AppError.ZipfCreate ("invalid Zipf parameter"))
  else Except.ok ()

/-- Rust `as usize` on a non-negative f64: truncation toward zero (saturating
at 0 for negative inputs). -/
def float_to_usize (x : ℚ) : Nat := ⌊x⌋.toNat

/-- The loop body of WorkloadGenerator::generate (src/cache.rs:154-164), with
the remaining iteration count as fuel; draws are threaded exactly as the source
threads `&mut self.rng`. -/
def workload_loop {ρ : Type} (R : Rng ρ) (cfg : Config) : Nat → ρ → List Op × ρ
  | 0, st => ([], st)
  | Nat.succ n, st =>
    let zs := R.zipfSample (cfg.TOTAL_KEYS : ℚ) cfg.ZIPF_S st
    let key := float_to_usize zs.1
    let fs := R.randF64 zs.2
    if fs.1 < cfg.readRatio then
      let rest := workload_loop R cfg n fs.2
      (Op.Read key :: rest.1, rest.2)
    else
      let vs := R.randU32 fs.2
      let rest := workload_loop R cfg n vs.2
      (Op.Write key vs.1 :: rest.1, rest.2)

/-- WorkloadGenerator::generate (src/cache.rs:148-167). -/
def generate {ρ : Type} (R : Rng ρ) (cfg : Config) (st : ρ) :
    Except AppError (List Op × ρ) :=
  match zipfNew (cfg.TOTAL_KEYS : ℚ) cfg.ZIPF_S with
  | Except.error e => Except.error e
  | Except.ok _ => Except.ok (workload_loop R cfg cfg.WORKLOAD_SIZE st)

/-- WorkloadGenerator::new(seed) followed by .generate(): a fresh instance
seeds a StdRng from the seed and generates from that state. -/
def WorkloadGenerator_generate {ρ : Type} (R : Rng ρ) (cfg : Config) (seed : Nat) :
    Except AppError (List Op × ρ) :=
  generate R cfg (R.seedFromU64 seed)

/-- The loop body of WarmupManager::generate_warmup_ops (src/cache.rs:196-205):
each iteration samples a key from Zipf over `CACHE_CAPACITY * 2`, draws a u32
value, pushes a Write, then with the `random::<f64>() < 0.2` draw additionally
pushes a Read of the same key. -/
def warmup_loop {ρ : Type} (R : Rng ρ) (cfg : Config) : Nat → ρ → List Op × ρ
  | 0, st => ([], st)
  | Nat.succ n, st =>
    let zs := R.zipfSample ((cfg.CACHE_CAPACITY * 2 : Nat) : ℚ) cfg.ZIPF_S st
    let key := float_to_usize zs.1
    let vs := R.randU32 zs.2
    let fs := R.randF64 vs.2
    let rest := warmup_loop R cfg n fs.2
    if fs.1 < mkRat 1 5 then
      (Op.Write key vs.1 :: Op.Read key :: rest.1, rest.2)
    else
      (Op.Write key vs.1 :: rest.1, rest.2)

/-- WarmupManager::generate_warmup_ops (src/cache.rs:190-208). -/
def generate_warmup_ops {ρ : Type} (R : Rng ρ) (cfg : Config) (st : ρ) :
    Except AppError (List Op × ρ) :=
  match zipfNew ((cfg.CACHE_CAPACITY * 2 : Nat) : ℚ) cfg.ZIPF_S with
  | Except.error e => Except.error e
  | Except.ok _ => Except.ok (warmup_loop R cfg cfg.WARMUP_SIZE st)

/-- Observable interactions of the runner and the warmup replay: adapter calls
and the cooperative latency suspension (with the drawn duration in
nanoseconds). -/
inductive Call where
  | get (key : Nat)
  | insert (key value : Nat)
  | delay (ns : Nat)
deriving DecidableEq

/-- simulate_backend_latency (src/cache.rs:128-132): draws
`random_range(MIN_DELAY_US * 1000..=MAX_DELAY_US * 1000)` nanoseconds and
sleeps for that duration; the drawn duration is returned so the suspension is
observable. -/
def simulate_backend_latency {ρ : Type} (R : Rng ρ) (cfg : Config) (st : ρ) :
    Nat × ρ :=
  R.randRange (cfg.MIN_DELAY_US * 1000) (cfg.MAX_DELAY_US * 1000) st

/-- Running state of CacheRunner::run_cache: adapter state, latency RNG state,
the two counters and the trace of observable interactions so far. -/
structure RunSt (σ ρ : Type) where
  cache : σ
  rng : ρ
  hits : Nat
  misses : Nat
  trace : List Call

/-- One iteration of the loop of CacheRunner::run_cache (src/cache.rs:247-263). -/
def run_cache_step {σ ρ : Type} (C : CacheOps σ) (R : Rng ρ) (cfg : Config)
    (s : RunSt σ ρ) : Op → RunSt σ ρ
  | Op.Read key =>
    let g := C.get s.cache key
    match g.1 with
    | some _ =>
      { cache := g.2, rng := s.rng, hits := s.hits + 1, misses := s.misses,
        trace := s.trace ++ [Call.get key] }
    | none =>
      let d := simulate_backend_latency R cfg s.rng
      { cache := C.insert g.2 key key, rng := d.2, hits := s.hits,
        misses := s.misses + 1,
        trace := s.trace ++ [Call.get key, Call.delay d.1, Call.insert key key] }
  | Op.Write key val =>
    let d := simulate_backend_latency R cfg s.rng
    { cache := C.insert s.cache key val, rng := d.2, hits := s.hits,
      misses := s.misses,
      trace := s.trace ++ [Call.delay d.1, Call.insert key val] }

/-- The loop of CacheRunner::run_cache over the remaining ops. -/
def run_cache_aux {σ ρ : Type} (C : CacheOps σ) (R : Rng ρ) (cfg : Config) :
    RunSt σ ρ → List Op → RunSt σ ρ
  | s, [] => s
  | s, op :: t => run_cache_aux C R cfg (run_cache_step C R cfg s op) t

/-- CacheRunner::run_cache (src/cache.rs:239-266): both counters start at zero;
`rng0` is the per-call SmallRng state seeded from fresh entropy. -/
def run_cache {σ ρ : Type} (C : CacheOps σ) (R : Rng ρ) (cfg : Config)
    (cache0 : σ) (rng0 : ρ) (ops : List Op) : RunSt σ ρ :=
  run_cache_aux C R cfg
    { cache := cache0, rng := rng0, hits := 0, misses := 0, trace := [] } ops

/-- The value CacheRunner::run_cache returns: always `Ok((hits, misses))`. -/
def run_cache_result {σ ρ : Type} (C : CacheOps σ) (R : Rng ρ) (cfg : Config)
    (cache0 : σ) (rng0 : ρ) (ops : List Op) : Except AppError (Nat × Nat) :=
  Except.ok ((run_cache C R cfg cache0 rng0 ops).hits,
             (run_cache C R cfg cache0 rng0 ops).misses)

/-- One iteration of the loop of WarmupManager::warmup_cache
(src/cache.rs:216-229), on adapter state paired with the call trace. -/
def warmup_step {σ : Type} (C : CacheOps σ) (s : σ × List Call) :
    Op → σ × List Call
  | Op.Read key =>
    let g := C.get s.1 key
    if key % 10 = 0 then
      (C.insert g.2 (key + 1000) (key + 1000),
       s.2 ++ [Call.get key, Call.insert (key + 1000) (key + 1000)])
    else
      (g.2, s.2 ++ [Call.get key])
  | Op.Write key val => (C.insert s.1 key val, s.2 ++ [Call.insert key val])

/-- The loop of WarmupManager::warmup_cache over the remaining ops. -/
def warmup_cache_aux {σ : Type} (C : CacheOps σ) :
    σ × List Call → List Op → σ × List Call
  | s, [] => s
  | s, op :: t => warmup_cache_aux C (warmup_step C s op) t

/-- WarmupManager::warmup_cache (src/cache.rs:211-231): replays every op and
returns `Ok(())`; the final adapter state and the call trace are exposed. -/
def warmup_cache {σ : Type} (C : CacheOps σ) (cache0 : σ) (ops : List Op) :
    Except AppError Unit × σ × List Call :=
  (Except.ok (), warmup_cache_aux C (cache0, []) ops)

/-- u64 modulus. -/
def U64_MOD : Nat := 2 ^ 64

/-- CacheRunner::calculate_hit_rate (src/cache.rs:270-277). The u64 addition
`hits + misses` is modelled with release-build wrapping (`% 2 ^ 64`); the f64
arithmetic of the percentage is idealised as exact rational arithmetic. -/
def calculate_hit_rate (hits misses : Nat) : ℚ :=
  let total := (hits + misses) % U64_MOD
  if total = 0 then 0 else (hits : ℚ) / (total : ℚ) * 100

/-- Number of Read ops in a sequence. -/
def count_reads : List Op → Nat
  | [] => 0
  | Op.Read _ :: t => count_reads t + 1
  | Op.Write _ _ :: t => count_reads t

/-- Number of Write ops in a sequence. -/
def count_writes : List Op → Nat
  | [] => 0
  | Op.Read _ :: t => count_writes t
  | Op.Write _ _ :: t => count_writes t + 1

/-- The key an op addresses. -/
def op_key : Op → Nat
  | Op.Read k => k
  | Op.Write k _ => k

/-- Spec-side shape of a warmup sequence: built from iterations that emit a
Write, optionally followed immediately by a Read of the same key. In such a
list every Read is immediately preceded by a Write with the same key. -/
inductive WarmupShape : List Op → Prop where
  | nil : WarmupShape []
  | write : ∀ (k v : Nat) (t : List Op), WarmupShape t →
      WarmupShape (Op.Write k v :: t)
  | writeRead : ∀ (k v : Nat) (t : List Op), WarmupShape t →
      WarmupShape (Op.Write k v :: Op.Read k :: t)

/-- Spec-side description of the adapter interactions warmup replay performs
for one op: a Write performs exactly one insert of that pair; a Read performs
one get, followed by an insert of key+1000 exactly when the key is a multiple
of 10; nothing ever suspends. -/
def warmupCallSpec : Op → List Call
  | Op.Read key =>
    if key % 10 = 0 then [Call.get key, Call.insert (key + 1000) (key + 1000)]
    else [Call.get key]
  | Op.Write key val => [Call.insert key val]

/-- Concatenated warmup interactions of a whole sequence, in input order. -/
def warmup_calls : List Op → List Call
  | [] => []
  | op :: t => warmupCallSpec op ++ warmup_calls t

/-- Spec-side description of one replay step of the runner, exactly as §4.4 of
the spec words it: on Read, get; if present, increment hits and leave the
cache as get left it; if absent, increment misses, suspend for the simulated
delay, then insert(key, key); on Write, suspend for the simulated delay, then
insert(key, value), leaving both counters unchanged. -/
inductive StepSpec {σ ρ : Type} (C : CacheOps σ) (R : Rng ρ) (cfg : Config) :
    RunSt σ ρ → Op → RunSt σ ρ → Prop where
  | readHit : ∀ (s : RunSt σ ρ) (key w : Nat) (c1 : σ),
      C.get s.cache key = (some w, c1) →
      StepSpec C R cfg s (Op.Read key)
        { cache := c1, rng := s.rng, hits := s.hits + 1, misses := s.misses,
          trace := s.trace ++ [Call.get key] }
  | readMiss : ∀ (s : RunSt σ ρ) (key : Nat) (c1 : σ) (d : Nat) (r1 : ρ),
      C.get s.cache key = (none, c1) →
      simulate_backend_latency R cfg s.rng = (d, r1) →
      StepSpec C R cfg s (Op.Read key)
        { cache := C.insert c1 key key, rng := r1, hits := s.hits,
          misses := s.misses + 1,
          trace := s.trace ++ [Call.get key, Call.delay d, Call.insert key key] }
  | write : ∀ (s : RunSt σ ρ) (key val d : Nat) (r1 : ρ),
      simulate_backend_latency R cfg s.rng = (d, r1) →
      StepSpec C R cfg s (Op.Write key val)
        { cache := C.insert s.cache key val, rng := r1, hits := s.hits,
          misses := s.misses,
          trace := s.trace ++ [Call.delay d, Call.insert key val] }

/-- Spec-side replay relation: the ops are applied strictly in input order,
each by one StepSpec step. -/
inductive ReplaySpec {σ ρ : Type} (C : CacheOps σ) (R : Rng ρ) (cfg : Config) :
    RunSt σ ρ → List Op → RunSt σ ρ → Prop where
  | nil : ∀ s : RunSt σ ρ, ReplaySpec C R cfg s [] s
  | cons : ∀ (s s1 s2 : RunSt σ ρ) (op : Op) (t : List Op),
      StepSpec C R cfg s op s1 → ReplaySpec C R cfg s1 t s2 →
      ReplaySpec C R cfg s (op :: t) s2

/-- A concrete, contract-conforming RNG used to instantiate theorems with
hypotheses: the Zipf sample is always 1, the f64 draw is always 1/2, the u32
draw is always 7, and the range draw returns the lower bound. -/
def cRng : Rng Unit :=
  { seedFromU64 := fun _ => ()
    zipfSample := fun _ _ _ => (1, ())
    randF64 := fun _ => (mkRat 1 2, ())
    randU32 := fun _ => (7, ())
    randRange := fun lo _ _ => (lo, ()) }

/-- A contract-conforming RNG whose Zipf sample is always the top value n of
the distribution's support 1..=n (the real sampler returns n with positive
probability) and whose f64 draw is 0, so every generated op is a Read. -/
def maxRng : Rng Unit :=
  { seedFromU64 := fun _ => ()
    zipfSample := fun n _ _ => (n, ())
    randF64 := fun _ => (0, ())
    randU32 := fun _ => (7, ())
    randRange := fun lo _ _ => (lo, ()) }

/-- A small configuration used to evaluate witness instances concretely. -/
def smallConfig : Config :=
  { defaultConfig with CACHE_CAPACITY := 2, WORKLOAD_SIZE := 2 }

/-- Default configuration with a single generated op, used to exhibit a
concrete generated sequence. -/
def cexConfig : Config :=
  { defaultConfig with WORKLOAD_SIZE := 1 }

/-- Default configuration with the skew exponent set to zero. -/
def zeroSkewConfig : Config :=
  { defaultConfig with ZIPF_S := 0 }

lemma cRng_wf : RngWF cRng := by
  constructor
  · intro n s st h
    exact ⟨le_refl 1, h⟩
  · intro st
    constructor <;> norm_num [cRng]
  · intro st
    norm_num [cRng]
  · intro lo hi st h
    exact ⟨le_refl lo, h⟩

lemma maxRng_wf : RngWF maxRng := by
  constructor
  · intro n s st h
    exact ⟨h, le_refl n⟩
  · intro st
    constructor <;> norm_num [maxRng]
  · intro st
    norm_num [maxRng]
  · intro lo hi st h
    exact ⟨le_refl lo, h⟩

lemma run_cache_aux_counts {σ ρ : Type} (C : CacheOps σ) (R : Rng ρ) (cfg : Config) :
    ∀ (ops : List Op) (s : RunSt σ ρ),
      (run_cache_aux C R cfg s ops).hits + (run_cache_aux C R cfg s ops).misses =
        s.hits + s.misses + count_reads ops := by
  intro ops
  induction ops with
  | nil =>
    intro s
    simp [run_cache_aux, count_reads]
  | cons op t ih =>
    intro s
    cases op with
    | Read key =>
      rw [run_cache_aux, ih]
      cases hg : (C.get s.cache key).1 with
      | none =>
        simp [run_cache_step, hg, count_reads]
        omega
      | some w =>
        simp [run_cache_step, hg, count_reads]
        omega
    | Write key val =>
      rw [run_cache_aux, ih]
      simp [run_cache_step, count_reads]

/-- C1: for every adapter satisfying the CacheOps contract and every op
sequence, run_cache returns Ok((hits, misses)) with hits + misses equal to the
number of Read ops in the sequence; both counters start at zero and Write ops
never increment either counter. -/
theorem run_cache_counting {σ ρ : Type} (C : CacheOps σ) (R : Rng ρ) (cfg : Config)
    (cache0 : σ) (rng0 : ρ) (ops : List Op) :
    ∃ h m : Nat, run_cache_result C R cfg cache0 rng0 ops = Except.ok (h, m) ∧
      h + m = count_reads ops := by
  refine ⟨(run_cache C R cfg cache0 rng0 ops).hits,
    (run_cache C R cfg cache0 rng0 ops).misses, rfl, ?_⟩
  unfold run_cache
  rw [run_cache_aux_counts]
  simp

lemma run_cache_aux_replay {σ ρ : Type} (C : CacheOps σ) (R : Rng ρ) (cfg : Config) :
    ∀ (ops : List Op) (s : RunSt σ ρ),
      ReplaySpec C R cfg s ops (run_cache_aux C R cfg s ops) := by
  intro ops
  induction ops with
  | nil =>
    intro s
    exact ReplaySpec.nil s
  | cons op t ih =>
    intro s
    refine ReplaySpec.cons s (run_cache_step C R cfg s op) _ op t ?_ (ih _)
    cases op with
    | Read key =>
      cases hg : C.get s.cache key with
      | mk v c1 =>
        cases v with
        | some w =>
          have h1 : run_cache_step C R cfg s (Op.Read key) =
              { cache := c1, rng := s.rng, hits := s.hits + 1, misses := s.misses,
                trace := s.trace ++ [Call.get key] } := by
            simp [run_cache_step, hg]
          rw [h1]
          exact StepSpec.readHit s key w c1 hg
        | none =>
          have h1 : run_cache_step C R cfg s (Op.Read key) =
              { cache := C.insert c1 key key,
                rng := (simulate_backend_latency R cfg s.rng).2, hits := s.hits,
                misses := s.misses + 1,
                trace := s.trace ++ [Call.get key,
                  Call.delay (simulate_backend_latency R cfg s.rng).1,
                  Call.insert key key] } := by
            simp [run_cache_step, hg]
          rw [h1]
          exact StepSpec.readMiss s key c1 (simulate_backend_latency R cfg s.rng).1
            (simulate_backend_latency R cfg s.rng).2 hg rfl
    | Write key val =>
      exact StepSpec.write s key val (simulate_backend_latency R cfg s.rng).1
        (simulate_backend_latency R cfg s.rng).2 rfl

/-- C2: run_cache applies each op in input order exactly as the spec's replay
step describes it: a Read hit increments hits and leaves the cache as get left
it; a Read miss increments misses, suspends for the simulated delay and then
inserts (key, key); a Write suspends for the simulated delay and then inserts
(key, value), leaving both counters unchanged. -/
theorem run_cache_follows_replay_spec {σ ρ : Type} (C : CacheOps σ) (R : Rng ρ)
    (cfg : Config) (cache0 : σ) (rng0 : ρ) (ops : List Op) :
    ReplaySpec C R cfg
      { cache := cache0, rng := rng0, hits := 0, misses := 0, trace := [] } ops
      (run_cache C R cfg cache0 rng0 ops) :=
  run_cache_aux_replay C R cfg ops _

lemma warmup_cache_aux_trace {σ : Type} (C : CacheOps σ) :
    ∀ (ops : List Op) (c : σ) (acc : List Call),
      (warmup_cache_aux C (c, acc) ops).2 = acc ++ warmup_calls ops := by
  intro ops
  induction ops with
  | nil =>
    intro c acc
    simp [warmup_cache_aux, warmup_calls]
  | cons op t ih =>
    intro c acc
    cases op with
    | Read key =>
      by_cases hk : key % 10 = 0
      · rw [warmup_cache_aux]
        simp [warmup_step, hk, warmup_calls, warmupCallSpec, ih]
      · rw [warmup_cache_aux]
        simp [warmup_step, hk, warmup_calls, warmupCallSpec, ih]
    | Write key val =>
      rw [warmup_cache_aux]
      simp [warmup_step, warmup_calls, warmupCallSpec, ih]

lemma warmup_calls_no_delay : ∀ (ops : List Op) (d : Nat),
    Call.delay d ∉ warmup_calls ops := by
  intro ops
  induction ops with
  | nil =>
    intro d
    simp [warmup_calls]
  | cons op t ih =>
    intro d
    cases op with
    | Read key =>
      by_cases hk : key % 10 = 0 <;>
        simp [warmup_calls, warmupCallSpec, hk, ih]
    | Write key val =>
      simp [warmup_calls, warmupCallSpec, ih]

/-- C10: warmup_cache always returns Ok(()), and its adapter interactions are
exactly, in input order: one insert(k, v) for each Write(k, v); one get(k) for
each Read(k), followed by an additional insert(k+1000, k+1000) exactly when k
is a multiple of 10; and it never suspends for a latency delay. -/
theorem warmup_cache_frame {σ : Type} (C : CacheOps σ) (cache0 : σ) (ops : List Op) :
    (warmup_cache C cache0 ops).1 = Except.ok () ∧
    (warmup_cache C cache0 ops).2.2 = warmup_calls ops ∧
    ∀ d : Nat, Call.delay d ∉ (warmup_cache C cache0 ops).2.2 := by
  refine ⟨rfl, ?_, ?_⟩
  · unfold warmup_cache
    simpa using warmup_cache_aux_trace C ops cache0 []
  · intro d
    unfold warmup_cache
    have h := warmup_cache_aux_trace C ops cache0 []
    simp only [h]
    simpa using warmup_calls_no_delay ops d

lemma float_to_usize_le {x : ℚ} {n : Nat} (h : x ≤ (n : ℚ)) :
    float_to_usize x ≤ n := by
  unfold float_to_usize
  have h1 : ⌊x⌋ ≤ (n : ℤ) := by
    have h2 := Int.floor_le_floor h
    simpa using h2
  exact Int.toNat_le.mpr h1

lemma zipfNew_ok_bounds {n s : ℚ} (h : zipfNew n s = Except.ok ()) :
    0 < s ∧ 1 ≤ n := by
  unfold zipfNew at h
  by_cases hc : s ≤ 0 ∨ n < 1
  · rw [if_pos hc] at h
    cases h
  · push_neg at hc
    exact hc

lemma workload_loop_length {ρ : Type} (R : Rng ρ) (cfg : Config) :
    ∀ (n : Nat) (st : ρ), (workload_loop R cfg n st).1.length = n := by
  intro n
  induction n with
  | zero =>
    intro st
    simp [workload_loop]
  | succ n ih =>
    intro st
    rw [workload_loop]
    split <;> simp [ih]

lemma workload_loop_keys {ρ : Type} (R : Rng ρ) (cfg : Config) (hR : RngWF R)
    (hn : 1 ≤ (cfg.TOTAL_KEYS : ℚ)) :
    ∀ (n : Nat) (st : ρ) (op : Op), op ∈ (workload_loop R cfg n st).1 →
      op_key op ≤ cfg.TOTAL_KEYS := by
  intro n
  induction n with
  | zero =>
    intro st op hop
    simp [workload_loop] at hop
  | succ n ih =>
    intro st op hop
    have hkey : float_to_usize (R.zipfSample (cfg.TOTAL_KEYS : ℚ) cfg.ZIPF_S st).1 ≤
        cfg.TOTAL_KEYS :=
      float_to_usize_le ((hR.zipf_mem (cfg.TOTAL_KEYS : ℚ) cfg.ZIPF_S st hn).2)
    rw [workload_loop] at hop
    split at hop <;>
      rcases List.mem_cons.mp hop with h | h
    · rw [h]
      exact hkey
    · exact ih _ op h
    · rw [h]
      exact hkey
    · exact ih _ op h

lemma warmup_loop_length {ρ : Type} (R : Rng ρ) (cfg : Config) :
    ∀ (n : Nat) (st : ρ), n ≤ (warmup_loop R cfg n st).1.length ∧
      (warmup_loop R cfg n st).1.length ≤ 2 * n := by
  intro n
  induction n with
  | zero =>
    intro st
    simp [warmup_loop]
  | succ n ih =>
    intro st
    rw [warmup_loop]
    split
    · have h := ih ((R.randF64 (R.randU32
        (R.zipfSample ((cfg.CACHE_CAPACITY * 2 : Nat) : ℚ) cfg.ZIPF_S st).2).2).2)
      simp only [List.length_cons]
      omega
    · have h := ih ((R.randF64 (R.randU32
        (R.zipfSample ((cfg.CACHE_CAPACITY * 2 : Nat) : ℚ) cfg.ZIPF_S st).2).2).2)
      simp only [List.length_cons]
      omega

lemma warmup_loop_writes {ρ : Type} (R : Rng ρ) (cfg : Config) :
    ∀ (n : Nat) (st : ρ), count_writes (warmup_loop R cfg n st).1 = n := by
  intro n
  induction n with
  | zero =>
    intro st
    simp [warmup_loop, count_writes]
  | succ n ih =>
    intro st
    rw [warmup_loop]
    split <;> simp [count_writes, ih]

lemma warmup_loop_shape {ρ : Type} (R : Rng ρ) (cfg : Config) :
    ∀ (n : Nat) (st : ρ), WarmupShape (warmup_loop R cfg n st).1 := by
  intro n
  induction n with
  | zero =>
    intro st
    simpa [warmup_loop] using WarmupShape.nil
  | succ n ih =>
    intro st
    rw [warmup_loop]
    split
    · exact WarmupShape.writeRead _ _ _ (ih _)
    · exact WarmupShape.write _ _ _ (ih _)

lemma warmup_loop_keys {ρ : Type} (R : Rng ρ) (cfg : Config) (hR : RngWF R)
    (hn : 1 ≤ ((cfg.CACHE_CAPACITY * 2 : Nat) : ℚ)) :
    ∀ (n : Nat) (st : ρ) (op : Op), op ∈ (warmup_loop R cfg n st).1 →
      op_key op ≤ 2 * cfg.CACHE_CAPACITY := by
  intro n
  induction n with
  | zero =>
    intro st op hop
    simp [warmup_loop] at hop
  | succ n ih =>
    intro st op hop
    have hkey : float_to_usize
        (R.zipfSample ((cfg.CACHE_CAPACITY * 2 : Nat) : ℚ) cfg.ZIPF_S st).1 ≤
        cfg.CACHE_CAPACITY * 2 :=
      float_to_usize_le
        ((hR.zipf_mem ((cfg.CACHE_CAPACITY * 2 : Nat) : ℚ) cfg.ZIPF_S st hn).2)
    have hkey2 : float_to_usize
        (R.zipfSample ((cfg.CACHE_CAPACITY * 2 : Nat) : ℚ) cfg.ZIPF_S st).1 ≤
        2 * cfg.CACHE_CAPACITY := by omega
    rw [warmup_loop] at hop
    split at hop <;>
      rcases List.mem_cons.mp hop with h | h
    · rw [h]
      exact hkey2
    · rcases List.mem_cons.mp h with h2 | h2
      · rw [h2]
        exact hkey2
      · exact ih _ op h2
    · rw [h]
      exact hkey2
    · exact ih _ op h

lemma generate_ok_elim {ρ : Type} {R : Rng ρ} {cfg : Config} {st st' : ρ}
    {ops : List Op} (h : generate R cfg st = Except.ok (ops, st')) :
    zipfNew (cfg.TOTAL_KEYS : ℚ) cfg.ZIPF_S = Except.ok () ∧
      ops = (workload_loop R cfg cfg.WORKLOAD_SIZE st).1 := by
  unfold generate at h
  cases hz : zipfNew (cfg.TOTAL_KEYS : ℚ) cfg.ZIPF_S with
  | error e =>
    rw [hz] at h
    cases h
  | ok u =>
    rw [hz] at h
    injection h with h2
    cases u
    exact ⟨rfl, (congrArg Prod.fst h2).symm⟩

lemma generate_warmup_ops_ok_elim {ρ : Type} {R : Rng ρ} {cfg : Config}
    {st st' : ρ} {ops : List Op}
    (h : generate_warmup_ops R cfg st = Except.ok (ops, st')) :
    zipfNew ((cfg.CACHE_CAPACITY * 2 : Nat) : ℚ) cfg.ZIPF_S = Except.ok () ∧
      ops = (warmup_loop R cfg cfg.WARMUP_SIZE st).1 := by
  unfold generate_warmup_ops at h
  cases hz : zipfNew ((cfg.CACHE_CAPACITY * 2 : Nat) : ℚ) cfg.ZIPF_S with
  | error e =>
    rw [hz] at h
    cases h
  | ok u =>
    rw [hz] at h
    injection h with h2
    cases u
    exact ⟨rfl, (congrArg Prod.fst h2).symm⟩

/-- C3 (amended): every key of a sequence produced by
WorkloadGenerator::generate lies in the closed interval [0, total_keys], and
every key of a sequence produced by WarmupManager::generate_warmup_ops lies in
the closed interval [0, 2 * cache capacity]; the upper bounds are attained, so
the half-open intervals of the original claim are off by one at the top (the
Zipf sampler draws from 1..=n). Keys are naturals, so the lower bound 0 is
implicit. -/
theorem keys_within_closed_bounds {ρ : Type} (R : Rng ρ) (cfg : Config)
    (gs gst ws wst : ρ) (gops wops : List Op) (hR : RngWF R)
    (hg : generate R cfg gs = Except.ok (gops, gst))
    (hw : generate_warmup_ops R cfg ws = Except.ok (wops, wst)) :
    (∀ op ∈ gops, op_key op ≤ cfg.TOTAL_KEYS) ∧
    (∀ op ∈ wops, op_key op ≤ 2 * cfg.CACHE_CAPACITY) := by
  obtain ⟨hzg, hopsg⟩ := generate_ok_elim hg
  obtain ⟨hzw, hopsw⟩ := generate_warmup_ops_ok_elim hw
  constructor
  · intro op hop
    rw [hopsg] at hop
    exact workload_loop_keys R cfg hR (zipfNew_ok_bounds hzg).2 _ _ op hop
  · intro op hop
    rw [hopsw] at hop
    exact warmup_loop_keys R cfg hR (zipfNew_ok_bounds hzw).2 _ _ op hop

theorem keys_within_closed_bounds_witness :
    (RngWF cRng ∧
     generate cRng smallConfig () = Except.ok ([Op.Read 1, Op.Read 1], ()) ∧
     generate_warmup_ops cRng smallConfig () =
       Except.ok ([Op.Write 1 7, Op.Write 1 7], ())) ∧
    ((∀ op ∈ ([Op.Read 1, Op.Read 1] : List Op),
        op_key op ≤ smallConfig.TOTAL_KEYS) ∧
     (∀ op ∈ ([Op.Write 1 7, Op.Write 1 7] : List Op),
        op_key op ≤ 2 * smallConfig.CACHE_CAPACITY)) :=
  ⟨⟨cRng_wf, by decide, by decide⟩,
    keys_within_closed_bounds cRng smallConfig () () () ()
      [Op.Read 1, Op.Read 1] [Op.Write 1 7, Op.Write 1 7] cRng_wf
      (by decide) (by decide)⟩

/-- C3 counterexample: with a sampler that conforms to the documented Zipf
contract (support 1..=n; the real sampler returns n with positive
probability), generate emits the key total_keys itself, which violates the
claimed half-open bound key < total_keys. -/
theorem generated_key_escapes_half_open_range :
    RngWF maxRng ∧
    generate maxRng cexConfig () = Except.ok ([Op.Read 10000], ()) ∧
    op_key (Op.Read 10000) = cexConfig.TOTAL_KEYS ∧
    ¬ op_key (Op.Read 10000) < cexConfig.TOTAL_KEYS :=
  ⟨maxRng_wf, by decide, by decide, by decide⟩

/-- C4: two fresh WorkloadGenerator instances built from the same seed produce
identical results, and the produced sequence has exactly workload_size ops. -/
theorem workload_generate_deterministic {ρ : Type} (R : Rng ρ) (cfg : Config)
    (seed : Nat) (hs : 0 < cfg.ZIPF_S) (hk : 1 ≤ cfg.TOTAL_KEYS) :
    WorkloadGenerator_generate R cfg seed = WorkloadGenerator_generate R cfg seed ∧
    ∃ (ops : List Op) (st' : ρ),
      WorkloadGenerator_generate R cfg seed = Except.ok (ops, st') ∧
        ops.length = cfg.WORKLOAD_SIZE := by
  refine ⟨rfl, ?_⟩
  have hz : zipfNew (cfg.TOTAL_KEYS : ℚ) cfg.ZIPF_S = Except.ok () := by
    unfold zipfNew
    rw [if_neg]
    push_neg
    refine ⟨hs, ?_⟩
    exact_mod_cast hk
  unfold WorkloadGenerator_generate generate
  rw [hz]
  exact ⟨_, _, rfl, workload_loop_length R cfg _ _⟩

theorem workload_generate_deterministic_witness :
    (0 < defaultConfig.ZIPF_S ∧ 1 ≤ defaultConfig.TOTAL_KEYS) ∧
    (WorkloadGenerator_generate cRng defaultConfig 42 =
       WorkloadGenerator_generate cRng defaultConfig 42 ∧
     ∃ (ops : List Op) (st' : Unit),
       WorkloadGenerator_generate cRng defaultConfig 42 = Except.ok (ops, st') ∧
         ops.length = defaultConfig.WORKLOAD_SIZE) :=
  ⟨⟨by decide, by decide⟩,
    workload_generate_deterministic cRng defaultConfig 42 (by decide) (by decide)⟩

/-- C6: a non-positive skew exponent, or an empty key space, makes generate
return a ZipfCreate error (the spec's ConfigurationError) instead of a
sequence; the function is total, so no crash is possible. -/
theorem generate_rejects_bad_config {ρ : Type} (R : Rng ρ) (cfg : Config) (st : ρ)
    (h : cfg.ZIPF_S ≤ 0 ∨ cfg.TOTAL_KEYS = 0) :
    ∃ msg, generate R cfg st = Except.error (AppError.ZipfCreate msg) := by
  refine ⟨"invalid Zipf parameter", ?_⟩
  have hz : zipfNew (cfg.TOTAL_KEYS : ℚ) cfg.ZIPF_S =
      Except.error (AppError.ZipfCreate ("invalid Zipf parameter")) := by
    unfold zipfNew
    rw [if_pos]
    rcases h with h | h
    · exact Or.inl h
    · right
      rw [h]
      norm_num
  unfold generate
  rw [hz]

theorem generate_rejects_bad_config_witness :
    (zeroSkewConfig.ZIPF_S ≤ 0 ∨ zeroSkewConfig.TOTAL_KEYS = 0) ∧
    ∃ msg, generate cRng zeroSkewConfig () =
      Except.error (AppError.ZipfCreate msg) :=
  ⟨by decide, generate_rejects_bad_config cRng zeroSkewConfig () (by decide)⟩

/-- C8: a sequence produced by generate_warmup_ops contains exactly
warmup_size (= cache capacity) Write ops; it is built from iterations that
emit one Write, each optionally followed immediately by a Read of the same
key, so every Read is immediately preceded by a Write with the same key; and
its total length lies between warmup_size and 2 * warmup_size. -/
theorem generate_warmup_ops_shape {ρ : Type} (R : Rng ρ) (cfg : Config)
    (st st' : ρ) (ops : List Op)
    (h : generate_warmup_ops R cfg st = Except.ok (ops, st')) :
    count_writes ops = cfg.WARMUP_SIZE ∧ WarmupShape ops ∧
      cfg.WARMUP_SIZE ≤ ops.length ∧ ops.length ≤ 2 * cfg.WARMUP_SIZE := by
  obtain ⟨hz, hops⟩ := generate_warmup_ops_ok_elim h
  rw [hops]
  exact ⟨warmup_loop_writes R cfg _ _, warmup_loop_shape R cfg _ _,
    (warmup_loop_length R cfg _ _).1, (warmup_loop_length R cfg _ _).2⟩

theorem generate_warmup_ops_shape_witness :
    generate_warmup_ops cRng smallConfig () =
      Except.ok ([Op.Write 1 7, Op.Write 1 7], ()) ∧
    (count_writes [Op.Write 1 7, Op.Write 1 7] = smallConfig.WARMUP_SIZE ∧
     WarmupShape [Op.Write 1 7, Op.Write 1 7] ∧
     smallConfig.WARMUP_SIZE ≤ ([Op.Write 1 7, Op.Write 1 7] : List Op).length ∧
     ([Op.Write 1 7, Op.Write 1 7] : List Op).length ≤ 2 * smallConfig.WARMUP_SIZE) :=
  ⟨by decide, generate_warmup_ops_shape cRng smallConfig () ()
    [Op.Write 1 7, Op.Write 1 7] (by decide)⟩

/-- C7: the delay drawn by simulate_backend_latency lies within
[MIN_DELAY_US * 1000, MAX_DELAY_US * 1000] nanoseconds, i.e. its duration in
microseconds lies within [MIN_DELAY_US, MAX_DELAY_US], inclusive of both
bounds. -/
theorem latency_within_bounds {ρ : Type} (R : Rng ρ) (cfg : Config) (st : ρ)
    (hR : RngWF R) (h : cfg.MIN_DELAY_US ≤ cfg.MAX_DELAY_US) :
    (cfg.MIN_DELAY_US * 1000 ≤ (simulate_backend_latency R cfg st).1 ∧
      (simulate_backend_latency R cfg st).1 ≤ cfg.MAX_DELAY_US * 1000) ∧
    ((cfg.MIN_DELAY_US : ℚ) ≤ ((simulate_backend_latency R cfg st).1 : ℚ) / 1000 ∧
      ((simulate_backend_latency R cfg st).1 : ℚ) / 1000 ≤ (cfg.MAX_DELAY_US : ℚ)) := by
  have hb := hR.randRange_mem (cfg.MIN_DELAY_US * 1000) (cfg.MAX_DELAY_US * 1000) st
    (Nat.mul_le_mul_right 1000 h)
  have hb2 : cfg.MIN_DELAY_US * 1000 ≤ (simulate_backend_latency R cfg st).1 ∧
      (simulate_backend_latency R cfg st).1 ≤ cfg.MAX_DELAY_US * 1000 := hb
  refine ⟨hb2, ?_, ?_⟩
  · rw [le_div_iff₀ (by norm_num : (0 : ℚ) < 1000)]
    exact_mod_cast hb2.1
  · rw [div_le_iff₀ (by norm_num : (0 : ℚ) < 1000)]
    exact_mod_cast hb2.2

theorem latency_within_bounds_witness :
    (RngWF cRng ∧ defaultConfig.MIN_DELAY_US ≤ defaultConfig.MAX_DELAY_US) ∧
    ((defaultConfig.MIN_DELAY_US * 1000 ≤
        (simulate_backend_latency cRng defaultConfig ()).1 ∧
      (simulate_backend_latency cRng defaultConfig ()).1 ≤
        defaultConfig.MAX_DELAY_US * 1000) ∧
     ((defaultConfig.MIN_DELAY_US : ℚ) ≤
        ((simulate_backend_latency cRng defaultConfig ()).1 : ℚ) / 1000 ∧
      ((simulate_backend_latency cRng defaultConfig ()).1 : ℚ) / 1000 ≤
        (defaultConfig.MAX_DELAY_US : ℚ))) :=
  ⟨⟨cRng_wf, by decide⟩,
    latency_within_bounds cRng defaultConfig () cRng_wf (by decide)⟩

/-- C5 (amended): calculate_hit_rate is a pure total function, and on every
pair of u64 counters whose sum does not overflow u64 it computes the exact
percentage without wrapping; the original claim's "never overflows" fails when
hits + misses reaches 2^64. -/
theorem hit_rate_total_no_overflow (hits misses : Nat)
    (h : hits + misses < U64_MOD) :
    calculate_hit_rate hits misses =
      (if hits + misses = 0 then (0 : ℚ)
       else (hits : ℚ) / ((hits : ℚ) + (misses : ℚ)) * 100) := by
  unfold calculate_hit_rate
  rw [Nat.mod_eq_of_lt h]
  by_cases h0 : hits + misses = 0
  · rw [if_pos h0, if_pos h0]
  · rw [if_neg h0, if_neg h0]
    push_cast
    ring

theorem hit_rate_total_no_overflow_witness :
    3 + 1 < U64_MOD ∧
    calculate_hit_rate 3 1 =
      (if 3 + 1 = 0 then (0 : ℚ) else (3 : ℚ) / ((3 : ℚ) + (1 : ℚ)) * 100) :=
  ⟨by norm_num [U64_MOD], hit_rate_total_no_overflow 3 1 (by norm_num [U64_MOD])⟩

/-- C5 counterexample: at hits = misses = 2^63 (both valid u64 values) the u64
sum overflows, the computed total wraps to 0, and the function returns 0
instead of the true percentage 50. -/
theorem hit_rate_overflows :
    ¬ 2 ^ 63 + 2 ^ 63 < U64_MOD ∧
    calculate_hit_rate (2 ^ 63) (2 ^ 63) = 0 ∧
    ((2 ^ 63 : ℚ) / ((2 ^ 63 : ℚ) + (2 ^ 63 : ℚ)) * 100 = 50) := by
  refine ⟨by norm_num [U64_MOD], ?_, by norm_num⟩
  unfold calculate_hit_rate U64_MOD
  norm_num

/-- C9 (amended): calculate_hit_rate(0,0) = 0 and calculate_hit_rate(3,1) = 75,
and for every pair of u64 counters with a nonzero, non-overflowing sum the
result is hits / (hits + misses) * 100; the general formula of the original
claim fails when hits + misses wraps past 2^64. -/
theorem hit_rate_values :
    calculate_hit_rate 0 0 = 0 ∧ calculate_hit_rate 3 1 = 75 ∧
    ∀ hits misses : Nat, hits + misses < U64_MOD → hits + misses ≠ 0 →
      calculate_hit_rate hits misses =
        (hits : ℚ) / ((hits : ℚ) + (misses : ℚ)) * 100 := by
  refine ⟨?_, ?_, ?_⟩
  · unfold calculate_hit_rate U64_MOD
    norm_num
  · unfold calculate_hit_rate U64_MOD
    norm_num
  · intro hits misses h h0
    unfold calculate_hit_rate
    rw [Nat.mod_eq_of_lt h, if_neg h0]
    push_cast
    ring

theorem hit_rate_values_witness :
    (3 + 1 < U64_MOD ∧ 3 + 1 ≠ 0) ∧
    calculate_hit_rate 3 1 = (3 : ℚ) / ((3 : ℚ) + (1 : ℚ)) * 100 :=
  ⟨⟨by norm_num [U64_MOD], by norm_num⟩,
    hit_rate_values.2.2 3 1 (by norm_num [U64_MOD]) (by norm_num)⟩

/-- C9 counterexample: at hits = 2^64 - 1 and misses = 1 the mathematical sum
is 2^64 and not 0, so the claim's formula promises a positive percentage, but
the computed u64 total wraps to 0 and the function returns 0. -/
theorem hit_rate_formula_breaks_on_wrap :
    calculate_hit_rate (2 ^ 64 - 1) 1 = 0 ∧
    (2 ^ 64 - 1) + 1 ≠ 0 ∧
    ¬ ((2 ^ 64 - 1 : ℚ) / ((2 ^ 64 - 1 : ℚ) + (1 : ℚ)) * 100 = 0) := by
  refine ⟨?_, by norm_num, by norm_num⟩
  unfold calculate_hit_rate U64_MOD
  norm_num

end LruBench
